import Mathlib

/-!
Shallow embedding of the resolver-dispatch core (Go package `dynamic`):
`NewResolverMap` (registry construction), `Resolve` / `getFieldResolver`
(dispatch), `Params.Arg` (argument binding), `emptyResolver` and the
`metaTypes` exclusion list.

Modelling conventions:
- Go maps (`map[schema.NamedType]*TypeResolver`, `map[string]*FieldResolver`,
  `map[string]interface{}`, `map[string]ResolverFunc`) are association lists
  with `findA` (lookup) and `insertA` (assign: overwrite-or-append), which
  mirrors Go map indexing and assignment.
- A `schema.NamedType` of the external gqlgen/neelance schema package is the
  inductive `NamedType`: objects and interfaces carry their declared fields,
  unions their possible-type names, and the remaining kinds (scalar, enum,
  input object) carry only their name; `TypeName()` is `NamedType.TypeName`.
  `common.Type` (a field's declared result type) is modelled as its type
  reference, a string.
- Go `interface{}` runtime values are `Value` (with `Value.null` for `nil`),
  and Go `error` values from github.com/pkg/errors are `GoErr`:
  `GoErr.errorf` for `errors.Errorf` with the already-formatted message and
  `GoErr.wrap` for `errors.Wrap`/`errors.Wrapf` (cause plus message);
  `GoErr.cause` is `errors.Cause` (unwraps to the root cause).
- A Go function returning `(interface{}, error)` returns `Value × Option GoErr`;
  `getFieldResolver`, which returns a pointer-or-error, returns
  `Except GoErr FieldResolver`.
-/

namespace Dynamic

/-- Association-list lookup, modelling Go map indexing `m[k]` (as an
`Option`, `none` for a missing key). -/
def findA {α : Type} {β : Type} [DecidableEq α] : List (α × β) → α → Option β
  | [], _ => none
  | (k0, v0) :: rest, key => if key = k0 then some v0 else findA rest key

/-- Association-list assignment, modelling Go map assignment `m[k] = v`:
overwrite the existing binding for `k`, or append a new one. -/
def insertA {α : Type} {β : Type} [DecidableEq α] : List (α × β) → α → β → List (α × β)
  | [], k, v => [(k, v)]
  | (k0, v0) :: rest, k, v =>
    if k = k0 then (k, v) :: rest else (k0, v0) :: insertA rest k v

/-- Go `interface{}` runtime values; `null` is Go `nil`. -/
inductive Value where
  | null
  | int (n : Int)
  | str (s : String)
deriving DecidableEq

/-- Go `error` values as produced by github.com/pkg/errors: `errorf` is
`errors.Errorf` carrying the formatted message, `wrap` is
`errors.Wrap`/`errors.Wrapf` carrying the cause and the added message. -/
inductive GoErr where
  | errorf (msg : String)
  | wrap (cause : GoErr) (msg : String)
deriving DecidableEq

/-- Root cause of an error, modelling `errors.Cause`: unwraps every `wrap`. -/
def GoErr.cause : GoErr → GoErr
  | .wrap e _ => e.cause
  | .errorf m => .errorf m

/-- A declared field of an object or interface type: its name and its
declared result type (`schema.Field`; the `common.Type` result type is
modelled by its type reference). The Go field `Type` is renamed `Ty`
because `Type` is reserved in Lean. -/
structure SField where
  Name : String
  Ty : String
deriving DecidableEq

/-- A named type of the schema (`schema.NamedType`), tagged by kind. -/
inductive NamedType where
  | object (name : String) (fields : List SField)
  | interface (name : String) (fields : List SField)
  | union (name : String) (possibleTypes : List String)
  | scalar (name : String)
  | enum (name : String)
  | inputObject (name : String)
deriving DecidableEq

/-- `schema.NamedType.TypeName()`. -/
def NamedType.TypeName : NamedType → String
  | .object n _ => n
  | .interface n _ => n
  | .union n _ => n
  | .scalar n => n
  | .enum n => n
  | .inputObject n => n

/-- The declared fields of a type: those of an object or interface;
every other kind declares none. -/
def declaredFields : NamedType → List SField
  | .object _ fs => fs
  | .interface _ fs => fs
  | _ => []

/-- The schema handed to `NewResolverMap` (`schema.Schema`): its named
types. Go iterates a map of types; the list models that iteration. -/
structure Schema where
  Types : List NamedType

/-- Per-invocation execution context (`Params`): a source value and the
bound arguments. -/
structure Params where
  Source : Value
  Args : List (String × Value)

/-- `ResolverFunc func(params Params) (interface{}, error)`. -/
abbrev ResolverFunc := Params → Value × Option GoErr

/-- `Params.Arg`: `if len(p.Args) == 0 { return nil }; return p.Args[name]`
(Go map indexing yields the zero value `nil` for a missing key). -/
def Params.Arg (p : Params) (name : String) : Value :=
  if p.Args.length = 0 then Value.null
  else
    match findA p.Args name with
    | some v => v
    | none => Value.null

/-- `emptyResolver`: returns `(nil, nil)`. -/
def emptyResolver : ResolverFunc := fun _ => (Value.null, none)

/-- `FieldResolver`: the field's declared result type and its resolver. -/
structure FieldResolver where
  Ty : String
  ResolverFunc : ResolverFunc

/-- `TypeResolver`: resolvers for each field of the type. -/
structure TypeResolver where
  Fields : List (String × FieldResolver)

/-- `ResolverMap`: resolvers for all named types. -/
structure ResolverMap where
  Types : List (NamedType × TypeResolver)

/-- The fixed meta-type exclusion list (`var metaTypes`). -/
def metaTypes : List String :=
  ["Map", "Float", "ID", "Int", "Boolean", "String",
   "__Type", "__TypeKind", "__Directive", "__EnumValue",
   "__Schema", "__InputValue", "__DirectiveLocation", "__Field"]

/-- `metaType(typeName)`: membership in the exclusion list. -/
def metaType (typeName : String) : Bool :=
  metaTypes.contains typeName

/-- One field's entry, from the loop body of `NewResolverMap`:
`res := inputResolvers[t.Name+"."+f.Name]; if res == nil { res = emptyResolver };
fields[f.Name] = &FieldResolver{Type: f.Type, ResolverFunc: res}`. -/
def fieldEntry (inputResolvers : List (String × ResolverFunc)) (tname : String)
    (f : SField) : FieldResolver :=
  match findA inputResolvers (tname ++ "." ++ f.Name) with
  | some res => { Ty := f.Ty, ResolverFunc := res }
  | none => { Ty := f.Ty, ResolverFunc := emptyResolver }

/-- The field map built by the per-field loop of `NewResolverMap` for a
type named `tname` with declared fields `fs`. -/
def buildFields (inputResolvers : List (String × ResolverFunc)) (tname : String)
    (fs : List SField) : List (String × FieldResolver) :=
  fs.foldl (fun m f => insertA m f.Name (fieldEntry inputResolvers tname f)) []

/-- The `switch t := t.(type)` of `NewResolverMap`: objects and interfaces
get their per-field loop; the union case is commented out in the source and
every other kind has no case, so both leave `fields` empty. -/
def typeFields (inputResolvers : List (String × ResolverFunc)) :
    NamedType → List (String × FieldResolver)
  | .object name fs => buildFields inputResolvers name fs
  | .interface name fs => buildFields inputResolvers name fs
  | _ => []

/-- The loop body of `NewResolverMap` for one type `t`: skip meta types,
build the field map, skip the type when it is empty, otherwise assign
`typeMap[t] = &TypeResolver{Fields: fields}`. -/
def addType (inputResolvers : List (String × ResolverFunc))
    (typeMap : List (NamedType × TypeResolver)) (t : NamedType) :
    List (NamedType × TypeResolver) :=
  if metaType t.TypeName then typeMap
  else
    let fields := typeFields inputResolvers t
    if fields.length = 0 then typeMap
    else insertA typeMap t { Fields := fields }

/-- `NewResolverMap(sch, inputResolvers)`: fold the loop body over the
schema's types, starting from an empty type map. -/
def NewResolverMap (sch : Schema)
    (inputResolvers : List (String × ResolverFunc)) : ResolverMap :=
  { Types := sch.Types.foldl (addType inputResolvers) [] }

/-- `getFieldResolver`: look up the type, then the field; each miss
produces the corresponding `errors.Errorf` message. -/
def ResolverMap.getFieldResolver (rm : ResolverMap) (typ : NamedType)
    (field : String) : Except GoErr FieldResolver :=
  match findA rm.Types typ with
  | none => .error (.errorf ("type " ++ typ.TypeName ++ " unknown"))
  | some typeResolver =>
    match findA typeResolver.Fields field with
    | none =>
      .error (.errorf ("type " ++ typ.TypeName ++ " does not contain field " ++ field))
    | some fieldResolver => .ok fieldResolver

/-- `Resolve`: wrap a lookup failure with "resolver lookup", run the bound
resolver, wrap its failure with the type and field names, otherwise return
its result unchanged. -/
def ResolverMap.Resolve (rm : ResolverMap) (typ : NamedType) (field : String)
    (params : Params) : Value × Option GoErr :=
  match rm.getFieldResolver typ field with
  | .error err => (Value.null, some (.wrap err "resolver lookup"))
  | .ok fieldResolver =>
    match fieldResolver.ResolverFunc params with
    | (_, some err) =>
      (Value.null,
       some (.wrap err ("failed executing resolver for " ++ typ.TypeName ++ "." ++ field)))
    | (result, none) => (result, none)

/-- The error value `Resolve` produces when the type is not registered
(the spec's `TypeNotFound`): `errors.Errorf("type %v unknown", ...)`
wrapped with "resolver lookup". -/
def typeNotFoundErr (typ : NamedType) : GoErr :=
  .wrap (.errorf ("type " ++ typ.TypeName ++ " unknown")) "resolver lookup"

/-- The error value `Resolve` produces when the type is registered but the
field is not (the spec's `FieldNotFound`). -/
def fieldNotFoundErr (typ : NamedType) (field : String) : GoErr :=
  .wrap (.errorf ("type " ++ typ.TypeName ++ " does not contain field " ++ field))
    "resolver lookup"

/-- `getFieldResolver` with the registry state threaded explicitly: the Go
method only reads `rm`, so every branch returns the registry it was given. -/
def ResolverMap.getFieldResolverSt (rm : ResolverMap) (typ : NamedType)
    (field : String) : ResolverMap × Except GoErr FieldResolver :=
  match findA rm.Types typ with
  | none => (rm, .error (.errorf ("type " ++ typ.TypeName ++ " unknown")))
  | some typeResolver =>
    match findA typeResolver.Fields field with
    | none =>
      (rm, .error (.errorf ("type " ++ typ.TypeName ++ " does not contain field " ++ field)))
    | some fieldResolver => (rm, .ok fieldResolver)

/-- `Resolve` with the registry state threaded explicitly. The bound
resolver receives only `params` (never the registry), so the invocation
step passes the registry through unchanged as well. -/
def ResolverMap.ResolveSt (rm : ResolverMap) (typ : NamedType) (field : String)
    (params : Params) : ResolverMap × (Value × Option GoErr) :=
  match rm.getFieldResolverSt typ field with
  | (rm1, .error err) => (rm1, (Value.null, some (.wrap err "resolver lookup")))
  | (rm1, .ok fieldResolver) =>
    match fieldResolver.ResolverFunc params with
    | (_, some err) =>
      (rm1,
       (Value.null,
        some (.wrap err ("failed executing resolver for " ++ typ.TypeName ++ "." ++ field))))
    | (result, none) => (rm1, (result, none))

/-- Concrete scenario (spec §8): object `User` with fields `id`, `name`. -/
def userType : NamedType :=
  .object "User" [{ Name := "id", Ty := "ID" }, { Name := "name", Ty := "String" }]

/-- Concrete scenario: a union type, which the builder leaves fieldless. -/
def searchUnion : NamedType := .union "Search" ["User"]

/-- Concrete scenario: handler supplied for `User.name` only. -/
def userNameHandler : ResolverFunc := fun _ => (Value.str "alice", none)

/-- Concrete scenario: a handler that fails with "db down". -/
def failingHandler : ResolverFunc := fun _ => (Value.null, some (.errorf "db down"))

/-- Concrete scenario schema: `User` and the union. -/
def sampleSchema : Schema := { Types := [userType, searchUnion] }

/-- Concrete scenario handler table: only `"User.name"`. -/
def sampleHandlers : List (String × ResolverFunc) := [("User.name", userNameHandler)]

/-- Concrete scenario handler table where `"User.name"` fails. -/
def failingHandlers : List (String × ResolverFunc) := [("User.name", failingHandler)]

/-- Concrete scenario execution context. -/
def sampleParams : Params := { Source := Value.null, Args := [] }

theorem findA_insertA_self {α β : Type} [DecidableEq α] (m : List (α × β)) (k : α) (v : β) :
    findA (insertA m k v) k = some v := by
  induction m with
  | nil => simp [insertA, findA]
  | cons p rest ih =>
    obtain ⟨k0, v0⟩ := p
    by_cases h : k = k0 <;> simp [insertA, findA, h, ih]

theorem findA_insertA_ne {α β : Type} [DecidableEq α] (m : List (α × β)) (k : α) (v : β)
    (key : α) (hne : key ≠ k) : findA (insertA m k v) key = findA m key := by
  induction m with
  | nil => simp [insertA, findA, hne]
  | cons p rest ih =>
    obtain ⟨k0, v0⟩ := p
    by_cases h : k = k0
    · subst h
      simp [insertA, findA, hne]
    · by_cases h2 : key = k0 <;> simp [insertA, findA, h, h2, ih]

theorem insertA_ne_nil {α β : Type} [DecidableEq α] (m : List (α × β)) (k : α) (v : β) :
    insertA m k v ≠ [] := by
  cases m with
  | nil => simp [insertA]
  | cons p rest =>
    obtain ⟨k0, v0⟩ := p
    by_cases h : k = k0 <;> simp [insertA, h]

theorem findA_insertA_isSome {α β : Type} [DecidableEq α] (m : List (α × β)) (k : α)
    (v : β) (key : α) :
    (findA (insertA m k v) key).isSome ↔ key = k ∨ (findA m key).isSome := by
  by_cases h : key = k
  · subst h
    simp [findA_insertA_self]
  · rw [findA_insertA_ne m k v key h]
    simp [h]

theorem msg_unknown_ne_contains (n f : String) :
    "type " ++ n ++ " unknown" ≠ "type " ++ n ++ " does not contain field " ++ f := by
  intro h
  have h2 := congrArg String.length h
  have e1 : (" unknown" : String).length = 8 := rfl
  have e2 : (" does not contain field " : String).length = 24 := rfl
  simp [String.length_append, e1, e2] at h2
  omega

theorem msg_exec_ne_lookup (n f : String) :
    "failed executing resolver for " ++ n ++ "." ++ f ≠ "resolver lookup" := by
  intro h
  have h2 := congrArg String.length h
  have e0 : ("resolver lookup" : String).length = 15 := rfl
  have e1 : ("failed executing resolver for " : String).length = 30 := rfl
  have e2 : ("." : String).length = 1 := rfl
  simp [String.length_append, e0, e1, e2] at h2
  omega

theorem findA_foldl_insert_not_mem (e : SField → FieldResolver) (fs : List SField)
    (m : List (String × FieldResolver)) (key : String)
    (h : key ∉ fs.map SField.Name) :
    findA (fs.foldl (fun m f => insertA m f.Name (e f)) m) key = findA m key := by
  induction fs generalizing m with
  | nil => rfl
  | cons f0 rest ih =>
    simp only [List.map_cons, List.mem_cons, not_or] at h
    simp only [List.foldl_cons]
    rw [ih _ h.2, findA_insertA_ne _ _ _ _ h.1]

theorem findA_foldl_insert_mem (e : SField → FieldResolver) (fs : List SField)
    (m : List (String × FieldResolver)) (f : SField) (hf : f ∈ fs)
    (hnodup : (fs.map SField.Name).Nodup) :
    findA (fs.foldl (fun m f => insertA m f.Name (e f)) m) f.Name = some (e f) := by
  induction fs generalizing m with
  | nil => cases hf
  | cons f0 rest ih =>
    simp only [List.map_cons, List.nodup_cons] at hnodup
    simp only [List.foldl_cons]
    by_cases hmem : f ∈ rest
    · exact ih _ hmem hnodup.2
    · have hf0 : f = f0 := by
        rcases List.mem_cons.mp hf with h | h
        · exact h
        · exact absurd h hmem
      subst hf0
      rw [findA_foldl_insert_not_mem e rest _ f.Name hnodup.1]
      exact findA_insertA_self m f.Name (e f)

theorem findA_foldl_insert_isSome (e : SField → FieldResolver) (fs : List SField)
    (m : List (String × FieldResolver)) (key : String) :
    (findA (fs.foldl (fun m f => insertA m f.Name (e f)) m) key).isSome
      ↔ key ∈ fs.map SField.Name ∨ (findA m key).isSome := by
  induction fs generalizing m with
  | nil => simp
  | cons f0 rest ih =>
    simp only [List.foldl_cons, List.map_cons, List.mem_cons]
    rw [ih]
    rw [findA_insertA_isSome]
    tauto

theorem foldl_insert_ne_nil (e : SField → FieldResolver) (fs : List SField)
    (m : List (String × FieldResolver)) (hm : m ≠ []) :
    fs.foldl (fun m f => insertA m f.Name (e f)) m ≠ [] := by
  induction fs generalizing m with
  | nil => exact hm
  | cons f0 rest ih =>
    simp only [List.foldl_cons]
    exact ih _ (insertA_ne_nil m f0.Name (e f0))

theorem buildFields_eq_nil_iff (inputResolvers : List (String × ResolverFunc))
    (tname : String) (fs : List SField) :
    buildFields inputResolvers tname fs = [] ↔ fs = [] := by
  constructor
  · intro h
    cases fs with
    | nil => rfl
    | cons f0 rest =>
      exact absurd h
        (by
          simp only [buildFields, List.foldl_cons]
          exact foldl_insert_ne_nil _ rest _ (insertA_ne_nil [] f0.Name _))
  · intro h
    subst h
    rfl

theorem typeFields_eq_nil_iff (inputResolvers : List (String × ResolverFunc))
    (t : NamedType) :
    typeFields inputResolvers t = [] ↔ declaredFields t = [] := by
  cases t <;> simp [typeFields, declaredFields, buildFields_eq_nil_iff]

theorem typeFields_eq_buildFields (inputResolvers : List (String × ResolverFunc))
    (t : NamedType) :
    typeFields inputResolvers t
      = buildFields inputResolvers t.TypeName (declaredFields t) := by
  cases t <;> rfl

theorem findA_foldl_addType_not_mem (inputResolvers : List (String × ResolverFunc))
    (ts : List NamedType) (tm : List (NamedType × TypeResolver)) (t : NamedType)
    (h : t ∉ ts) :
    findA (ts.foldl (addType inputResolvers) tm) t = findA tm t := by
  induction ts generalizing tm with
  | nil => rfl
  | cons t0 rest ih =>
    simp only [List.mem_cons, not_or] at h
    simp only [List.foldl_cons]
    rw [ih _ h.2]
    unfold addType
    by_cases hm : metaType t0.TypeName
    · simp [hm]
    · simp only [hm, if_false, Bool.false_eq_true]
      by_cases hz : (typeFields inputResolvers t0).length = 0
      · simp [hz]
      · simp only [hz, if_false]
        exact findA_insertA_ne tm t0 _ t h.1

theorem findA_foldl_addType_skipped (inputResolvers : List (String × ResolverFunc))
    (ts : List NamedType) (tm : List (NamedType × TypeResolver)) (t : NamedType)
    (h : metaType t.TypeName = true ∨ typeFields inputResolvers t = []) :
    findA (ts.foldl (addType inputResolvers) tm) t = findA tm t := by
  induction ts generalizing tm with
  | nil => rfl
  | cons t0 rest ih =>
    simp only [List.foldl_cons]
    rw [ih]
    unfold addType
    by_cases hm : metaType t0.TypeName
    · simp [hm]
    · simp only [hm, if_false, Bool.false_eq_true]
      by_cases hz : (typeFields inputResolvers t0).length = 0
      · simp [hz]
      · simp only [hz, if_false]
        have hne : t ≠ t0 := by
          intro he
          subst he
          rcases h with h | h
          · exact hm h
          · exact hz (by rw [h]; rfl)
        exact findA_insertA_ne tm t0 _ t hne

theorem findA_foldl_addType_mem (inputResolvers : List (String × ResolverFunc))
    (ts : List NamedType) (tm : List (NamedType × TypeResolver)) (t : NamedType)
    (hmem : t ∈ ts) (hmeta : metaType t.TypeName = false)
    (hne : typeFields inputResolvers t ≠ []) :
    findA (ts.foldl (addType inputResolvers) tm) t
      = some { Fields := typeFields inputResolvers t } := by
  induction ts generalizing tm with
  | nil => cases hmem
  | cons t0 rest ih =>
    simp only [List.foldl_cons]
    by_cases hr : t ∈ rest
    · exact ih _ hr
    · have ht0 : t = t0 := by
        rcases List.mem_cons.mp hmem with h | h
        · exact h
        · exact absurd h hr
      subst ht0
      rw [findA_foldl_addType_not_mem inputResolvers rest _ t hr]
      unfold addType
      simp only [hmeta, if_false, Bool.false_eq_true]
      have hz : ¬((typeFields inputResolvers t).length = 0) := by
        intro h0
        exact hne (List.length_eq_zero.mp h0)
      simp only [hz, if_false]
      exact findA_insertA_self tm t _

theorem findA_foldl_addType_isSome_imp (inputResolvers : List (String × ResolverFunc))
    (ts : List NamedType) (tm : List (NamedType × TypeResolver)) (t : NamedType)
    (h : (findA (ts.foldl (addType inputResolvers) tm) t).isSome) :
    t ∈ ts ∨ (findA tm t).isSome := by
  induction ts generalizing tm with
  | nil => exact Or.inr h
  | cons t0 rest ih =>
    simp only [List.foldl_cons] at h
    rcases ih _ h with hr | hacc
    · exact Or.inl (List.mem_cons_of_mem t0 hr)
    · unfold addType at hacc
      by_cases hm : metaType t0.TypeName
      · simp only [hm, if_true] at hacc
        exact Or.inr hacc
      · simp only [hm, if_false, Bool.false_eq_true] at hacc
        by_cases hz : (typeFields inputResolvers t0).length = 0
        · simp only [hz, if_true] at hacc
          exact Or.inr hacc
        · simp only [hz, if_false] at hacc
          rcases (findA_insertA_isSome tm t0 _ t).mp hacc with he | hacc2
          · exact Or.inl (by rw [he]; exact List.mem_cons_self t0 rest)
          · exact Or.inr hacc2

theorem findA_foldl_addType_value (inputResolvers : List (String × ResolverFunc))
    (ts : List NamedType) (tm : List (NamedType × TypeResolver)) (t : NamedType)
    (tr : TypeResolver)
    (h : findA (ts.foldl (addType inputResolvers) tm) t = some tr) :
    tr = { Fields := typeFields inputResolvers t } ∨ findA tm t = some tr := by
  induction ts generalizing tm with
  | nil => exact Or.inr h
  | cons t0 rest ih =>
    simp only [List.foldl_cons] at h
    rcases ih _ h with hv | hacc
    · exact Or.inl hv
    · unfold addType at hacc
      by_cases hm : metaType t0.TypeName
      · simp only [hm, if_true] at hacc
        exact Or.inr hacc
      · simp only [hm, if_false, Bool.false_eq_true] at hacc
        by_cases hz : (typeFields inputResolvers t0).length = 0
        · simp only [hz, if_true] at hacc
          exact Or.inr hacc
        · simp only [hz, if_false] at hacc
          by_cases he : t = t0
          · subst he
            rw [findA_insertA_self tm t _] at hacc
            exact Or.inl (Option.some_inj.mp hacc).symm
          · rw [findA_insertA_ne tm t0 _ t he] at hacc
            exact Or.inr hacc

theorem getFieldResolver_of_type_missing (rm : ResolverMap) (typ : NamedType)
    (field : String) (h : findA rm.Types typ = none) :
    rm.getFieldResolver typ field
      = .error (.errorf ("type " ++ typ.TypeName ++ " unknown")) := by
  simp [ResolverMap.getFieldResolver, h]

theorem getFieldResolver_of_field_missing (rm : ResolverMap) (typ : NamedType)
    (field : String) (tr : TypeResolver) (h : findA rm.Types typ = some tr)
    (h2 : findA tr.Fields field = none) :
    rm.getFieldResolver typ field
      = .error (.errorf ("type " ++ typ.TypeName ++ " does not contain field " ++ field)) := by
  simp [ResolverMap.getFieldResolver, h, h2]

theorem getFieldResolver_of_found (rm : ResolverMap) (typ : NamedType)
    (field : String) (tr : TypeResolver) (fr : FieldResolver)
    (h : findA rm.Types typ = some tr) (h2 : findA tr.Fields field = some fr) :
    rm.getFieldResolver typ field = .ok fr := by
  simp [ResolverMap.getFieldResolver, h, h2]

theorem resolve_of_lookup_error (rm : ResolverMap) (typ : NamedType) (field : String)
    (params : Params) (e : GoErr) (h : rm.getFieldResolver typ field = .error e) :
    rm.Resolve typ field params = (Value.null, some (.wrap e "resolver lookup")) := by
  simp [ResolverMap.Resolve, h]

theorem resolve_of_handler_ok (rm : ResolverMap) (typ : NamedType) (field : String)
    (params : Params) (fr : FieldResolver) (v : Value)
    (h : rm.getFieldResolver typ field = .ok fr)
    (h2 : fr.ResolverFunc params = (v, none)) :
    rm.Resolve typ field params = (v, none) := by
  simp [ResolverMap.Resolve, h, h2]

theorem resolve_of_handler_error (rm : ResolverMap) (typ : NamedType) (field : String)
    (params : Params) (fr : FieldResolver) (v : Value) (e : GoErr)
    (h : rm.getFieldResolver typ field = .ok fr)
    (h2 : fr.ResolverFunc params = (v, some e)) :
    rm.Resolve typ field params
      = (Value.null,
         some (.wrap e ("failed executing resolver for " ++ typ.TypeName ++ "." ++ field))) := by
  simp [ResolverMap.Resolve, h, h2]

theorem getFieldResolver_build (sch : Schema)
    (inputResolvers : List (String × ResolverFunc)) (t : NamedType) (f : SField)
    (hmem : t ∈ sch.Types) (hmeta : metaType t.TypeName = false)
    (hf : f ∈ declaredFields t)
    (hnodup : ((declaredFields t).map SField.Name).Nodup) :
    (NewResolverMap sch inputResolvers).getFieldResolver t f.Name
      = .ok (fieldEntry inputResolvers t.TypeName f) := by
  have hdne : declaredFields t ≠ [] := List.ne_nil_of_mem hf
  have htne : typeFields inputResolvers t ≠ [] := by
    intro h0
    exact hdne ((typeFields_eq_nil_iff inputResolvers t).mp h0)
  have hty : findA (NewResolverMap sch inputResolvers).Types t
      = some { Fields := typeFields inputResolvers t } :=
    findA_foldl_addType_mem inputResolvers sch.Types [] t hmem hmeta htne
  have hfld : findA (typeFields inputResolvers t) f.Name
      = some (fieldEntry inputResolvers t.TypeName f) := by
    rw [typeFields_eq_buildFields]
    exact findA_foldl_insert_mem _ (declaredFields t) [] f hf hnodup
  exact getFieldResolver_of_found _ t f.Name _ _ hty hfld

theorem foldl_congr_on {α β : Type} (f g : β → α → β) (l : List α) (a : β)
    (h : ∀ x ∈ l, ∀ acc, f acc x = g acc x) : l.foldl f a = l.foldl g a := by
  induction l generalizing a with
  | nil => rfl
  | cons x rest ih =>
    simp only [List.foldl_cons]
    rw [h x (List.mem_cons_self x rest) a]
    exact ih _ (fun y hy acc => h y (List.mem_cons_of_mem x hy) acc)

theorem fieldEntry_cons_unused (inputResolvers : List (String × ResolverFunc))
    (k : String) (hd : ResolverFunc) (tname : String) (f : SField)
    (hne : tname ++ "." ++ f.Name ≠ k) :
    fieldEntry ((k, hd) :: inputResolvers) tname f = fieldEntry inputResolvers tname f := by
  unfold fieldEntry
  have : findA ((k, hd) :: inputResolvers) (tname ++ "." ++ f.Name)
      = findA inputResolvers (tname ++ "." ++ f.Name) := by
    simp [findA, hne]
  rw [this]

theorem typeFields_cons_unused (inputResolvers : List (String × ResolverFunc))
    (k : String) (hd : ResolverFunc) (t : NamedType)
    (hk : ∀ f ∈ declaredFields t, t.TypeName ++ "." ++ f.Name ≠ k) :
    typeFields ((k, hd) :: inputResolvers) t = typeFields inputResolvers t := by
  cases t with
  | object name fs =>
    simp only [typeFields, buildFields]
    exact foldl_congr_on _ _ fs []
      (fun f hf acc => by
        rw [fieldEntry_cons_unused inputResolvers k hd name f (hk f hf)])
  | interface name fs =>
    simp only [typeFields, buildFields]
    exact foldl_congr_on _ _ fs []
      (fun f hf acc => by
        rw [fieldEntry_cons_unused inputResolvers k hd name f (hk f hf)])
  | union name pts => rfl
  | scalar name => rfl
  | enum name => rfl
  | inputObject name => rfl

/-- C1: for every object- or interface-kind type `t` of the schema that the
registry retains (non-meta, with a declared field `f`), when the handler
table has an entry under the key `t.Name ++ "." ++ f.Name`, the registry
binds exactly that handler (first conjunct), and `Resolve` on `(t, f.Name)`
with a given execution context returns the handler's produced value
unchanged with no error whenever the handler succeeds (second conjunct).
Field names of valid schemas are unique per type (`hnodup`). -/
theorem resolve_invokes_matching_handler (sch : Schema)
    (inputResolvers : List (String × ResolverFunc)) (t : NamedType) (f : SField)
    (hdl : ResolverFunc) (params : Params) (v : Value)
    (hmem : t ∈ sch.Types) (hmeta : metaType t.TypeName = false)
    (hf : f ∈ declaredFields t)
    (hnodup : ((declaredFields t).map SField.Name).Nodup)
    (hhdl : findA inputResolvers (t.TypeName ++ "." ++ f.Name) = some hdl)
    (hsucc : hdl params = (v, none)) :
    (NewResolverMap sch inputResolvers).getFieldResolver t f.Name
        = .ok { Ty := f.Ty, ResolverFunc := hdl }
      ∧ (NewResolverMap sch inputResolvers).Resolve t f.Name params = (v, none) := by
  have hget := getFieldResolver_build sch inputResolvers t f hmem hmeta hf hnodup
  have hentry : fieldEntry inputResolvers t.TypeName f
      = { Ty := f.Ty, ResolverFunc := hdl } := by
    unfold fieldEntry
    rw [hhdl]
  rw [hentry] at hget
  exact ⟨hget, resolve_of_handler_ok _ t f.Name params _ v hget hsucc⟩

/-- C1 witness: in the `User` scenario, `Resolve(User, "name", ctx)` runs
the supplied handler and returns its value. -/
theorem resolve_invokes_matching_handler_witness :
    (NewResolverMap sampleSchema sampleHandlers).Resolve userType "name" sampleParams
      = (Value.str "alice", none) :=
  (resolve_invokes_matching_handler sampleSchema sampleHandlers userType
    { Name := "name", Ty := "String" } userNameHandler sampleParams (Value.str "alice")
    (by decide) (by decide) (by decide) (by decide) rfl rfl).2

/-- C2: for every declared field of a retained type with no matching
handler-table entry, the registry binds the (non-null) no-op handler
`emptyResolver`, and `Resolve` on that type and field returns a null value
and no error — never a field-not-found failure. -/
theorem resolve_noop_fallback (sch : Schema)
    (inputResolvers : List (String × ResolverFunc)) (t : NamedType) (f : SField)
    (hmem : t ∈ sch.Types) (hmeta : metaType t.TypeName = false)
    (hf : f ∈ declaredFields t)
    (hnodup : ((declaredFields t).map SField.Name).Nodup)
    (hhdl : findA inputResolvers (t.TypeName ++ "." ++ f.Name) = none) :
    (NewResolverMap sch inputResolvers).getFieldResolver t f.Name
        = .ok { Ty := f.Ty, ResolverFunc := emptyResolver }
      ∧ ∀ params, (NewResolverMap sch inputResolvers).Resolve t f.Name params
          = (Value.null, none) := by
  have hget := getFieldResolver_build sch inputResolvers t f hmem hmeta hf hnodup
  have hentry : fieldEntry inputResolvers t.TypeName f
      = { Ty := f.Ty, ResolverFunc := emptyResolver } := by
    unfold fieldEntry
    rw [hhdl]
  rw [hentry] at hget
  exact ⟨hget, fun params => resolve_of_handler_ok _ t f.Name params _ Value.null hget rfl⟩

/-- C2 witness: in the `User` scenario no handler is supplied for
`User.id`, and `Resolve(User, "id", ctx)` returns `(null, nil)`. -/
theorem resolve_noop_fallback_witness :
    (NewResolverMap sampleSchema sampleHandlers).Resolve userType "id" sampleParams
      = (Value.null, none) :=
  (resolve_noop_fallback sampleSchema sampleHandlers userType
    { Name := "id", Ty := "ID" }
    (by decide) (by decide) (by decide) (by decide) rfl).2 sampleParams

/-- C4: every key of the built registry has a name outside the meta-type
exclusion list; equivalently, a type whose name is on the list is never
included as a registry key, whatever its kind and whatever the handler
table contains. -/
theorem build_excludes_meta_types (sch : Schema)
    (inputResolvers : List (String × ResolverFunc)) (t : NamedType)
    (tr : TypeResolver)
    (h : findA (NewResolverMap sch inputResolvers).Types t = some tr) :
    metaType t.TypeName = false := by
  by_cases hm : metaType t.TypeName
  · have hskip := findA_foldl_addType_skipped inputResolvers sch.Types [] t (Or.inl hm)
    have h2 : findA (NewResolverMap sch inputResolvers).Types t = none := by
      rw [show (NewResolverMap sch inputResolvers).Types
          = sch.Types.foldl (addType inputResolvers) [] from rfl, hskip]
      rfl
    rw [h2] at h
    cases h
  · simpa using hm

/-- C4 witness: `User` is a registry key of the scenario registry, and its
name is not a meta type. -/
theorem build_excludes_meta_types_witness : metaType userType.TypeName = false :=
  build_excludes_meta_types sampleSchema sampleHandlers userType _ rfl

/-- C5: unions always end the build with zero field entries (first
conjunct), and any type whose built field map is empty is omitted from the
registry entirely, so dispatching against it fails with the type-not-found
error, not an empty match or a field-not-found error (second conjunct). -/
theorem empty_field_types_omitted (sch : Schema)
    (inputResolvers : List (String × ResolverFunc)) (t : NamedType) :
    (∀ name pts, typeFields inputResolvers (NamedType.union name pts) = [])
    ∧ (typeFields inputResolvers t = [] →
        findA (NewResolverMap sch inputResolvers).Types t = none
        ∧ ∀ field params, (NewResolverMap sch inputResolvers).Resolve t field params
            = (Value.null, some (typeNotFoundErr t))) := by
  constructor
  · intro name pts
    rfl
  · intro hz
    have hnone : findA (NewResolverMap sch inputResolvers).Types t = none := by
      have hskip := findA_foldl_addType_skipped inputResolvers sch.Types [] t (Or.inr hz)
      rw [show (NewResolverMap sch inputResolvers).Types
          = sch.Types.foldl (addType inputResolvers) [] from rfl, hskip]
      rfl
    refine ⟨hnone, fun field params => ?_⟩
    have hg := getFieldResolver_of_type_missing _ t field hnone
    rw [resolve_of_lookup_error _ t field params _ hg]
    rfl

/-- C5 witness: the scenario union `Search` has no field entries, is not a
registry key, and dispatching against it yields the type-not-found error. -/
theorem empty_field_types_omitted_witness :
    findA (NewResolverMap sampleSchema sampleHandlers).Types searchUnion = none
    ∧ (NewResolverMap sampleSchema sampleHandlers).Resolve searchUnion "x" sampleParams
        = (Value.null, some (typeNotFoundErr searchUnion)) :=
  ⟨((empty_field_types_omitted sampleSchema sampleHandlers searchUnion).2 rfl).1,
   ((empty_field_types_omitted sampleSchema sampleHandlers searchUnion).2 rfl).2
     "x" sampleParams⟩

/-- C6: when the bound handler fails, `Resolve` returns a null value — no
partial result — together with an error that wraps the handler's original
error under a message naming both the offending type and field
("failed executing resolver for Type.field"); the root cause of the
returned error is exactly the root cause of the handler's error
(`errors.Cause` preserved, nothing swallowed). -/
theorem handler_error_wrapped (rm : ResolverMap) (typ : NamedType) (field : String)
    (params : Params) (fr : FieldResolver) (v : Value) (e : GoErr)
    (hok : rm.getFieldResolver typ field = .ok fr)
    (hrun : fr.ResolverFunc params = (v, some e)) :
    rm.Resolve typ field params
      = (Value.null,
         some (.wrap e ("failed executing resolver for " ++ typ.TypeName ++ "." ++ field)))
    ∧ (GoErr.wrap e
        ("failed executing resolver for " ++ typ.TypeName ++ "." ++ field)).cause
      = e.cause :=
  ⟨resolve_of_handler_error rm typ field params fr v e hok hrun, rfl⟩

/-- C6 witness: the `User.name` handler fails with "db down"; `Resolve`
returns no value and the wrapped error naming `User.name` with the
original cause preserved. -/
theorem handler_error_wrapped_witness :
    (NewResolverMap sampleSchema failingHandlers).Resolve userType "name" sampleParams
      = (Value.null,
         some (.wrap (.errorf "db down") ("failed executing resolver for " ++ "User" ++ "." ++ "name")))
    ∧ (GoErr.wrap (GoErr.errorf "db down")
        ("failed executing resolver for " ++ "User" ++ "." ++ "name")).cause
      = (GoErr.errorf "db down").cause :=
  handler_error_wrapped (NewResolverMap sampleSchema failingHandlers) userType "name"
    sampleParams { Ty := "String", ResolverFunc := failingHandler } Value.null
    (.errorf "db down") rfl rfl

/-- C7: the argument accessor is total: it returns the bound value when
the name is bound, and the null indicator — never a failure — when the
argument map is empty or lacks the name. -/
theorem arg_total (p : Params) (name : String) :
    (∀ v, findA p.Args name = some v → p.Arg name = v)
    ∧ (findA p.Args name = none → p.Arg name = Value.null) := by
  constructor
  · intro v hv
    unfold Params.Arg
    by_cases h0 : p.Args.length = 0
    · rw [List.length_eq_zero.mp h0] at hv
      cases hv
    · simp [h0, hv]
  · intro hv
    unfold Params.Arg
    by_cases h0 : p.Args.length = 0 <;> simp [h0, hv]

/-- C7 witness: a bound name yields its value; an unbound name on an empty
argument map yields null, without failure. -/
theorem arg_total_witness :
    Params.Arg { Source := Value.null, Args := [("x", Value.int 3)] } "x" = Value.int 3
    ∧ Params.Arg { Source := Value.null, Args := [] } "missing" = Value.null :=
  ⟨(arg_total { Source := Value.null, Args := [("x", Value.int 3)] } "x").1
      (Value.int 3) rfl,
   (arg_total { Source := Value.null, Args := [] } "missing").2 rfl⟩

/-- C9: dispatch is read-only with respect to the registry: threading the
registry state explicitly through every step of `Resolve` (the bound
handler receives only the execution context, never the registry), the
registry after the call is identical to the registry before it, whether
the call succeeds or fails, and the produced value-and-error agrees with
`Resolve`. The argument accessor `Params.Arg` does not take the registry
at all, so it cannot touch it. -/
theorem resolve_preserves_registry (rm : ResolverMap) (typ : NamedType)
    (field : String) (params : Params) :
    (rm.ResolveSt typ field params).1 = rm
    ∧ (rm.ResolveSt typ field params).2 = rm.Resolve typ field params := by
  unfold ResolverMap.ResolveSt ResolverMap.Resolve ResolverMap.getFieldResolverSt
    ResolverMap.getFieldResolver
  cases hty : findA rm.Types typ with
  | none => simp
  | some tr =>
    cases hfld : findA tr.Fields field with
    | none => simp [hfld]
    | some fr =>
      cases hrun : fr.ResolverFunc params with
      | mk v oe =>
        cases oe <;> simp [hfld, hrun]

/-- C3: `Resolve` fails with the type-not-found error exactly when the
requested type is absent from the registry, and with the field-not-found
error exactly when the type is present but the field is not in its field
table; the last two conjuncts give the failing outcomes as equalities that
hold for every execution context and every bound handler (the registry is
arbitrary), so no handler is invoked in either case and no value is
returned alongside the error. -/
theorem resolve_lookup_errors (rm : ResolverMap) (typ : NamedType) (field : String)
    (params : Params) :
    ((rm.Resolve typ field params).2 = some (typeNotFoundErr typ)
        ↔ findA rm.Types typ = none)
    ∧ ((rm.Resolve typ field params).2 = some (fieldNotFoundErr typ field)
        ↔ ∃ tr, findA rm.Types typ = some tr ∧ findA tr.Fields field = none)
    ∧ (findA rm.Types typ = none →
        rm.Resolve typ field params = (Value.null, some (typeNotFoundErr typ)))
    ∧ (∀ tr, findA rm.Types typ = some tr → findA tr.Fields field = none →
        rm.Resolve typ field params = (Value.null, some (fieldNotFoundErr typ field))) := by
  have k1 : findA rm.Types typ = none →
      rm.Resolve typ field params = (Value.null, some (typeNotFoundErr typ)) := by
    intro h
    rw [resolve_of_lookup_error rm typ field params _
      (getFieldResolver_of_type_missing rm typ field h)]
    rfl
  have k2 : ∀ tr, findA rm.Types typ = some tr → findA tr.Fields field = none →
      rm.Resolve typ field params = (Value.null, some (fieldNotFoundErr typ field)) := by
    intro tr h h2
    rw [resolve_of_lookup_error rm typ field params _
      (getFieldResolver_of_field_missing rm typ field tr h h2)]
    rfl
  refine ⟨⟨?_, fun h => by rw [k1 h]⟩, ⟨?_, fun h => ?_⟩, k1, k2⟩
  · intro h
    cases hty : findA rm.Types typ with
    | none => rfl
    | some tr =>
      exfalso
      cases hf2 : findA tr.Fields field with
      | none =>
        rw [k2 tr hty hf2] at h
        have h3 : fieldNotFoundErr typ field = typeNotFoundErr typ :=
          Option.some_inj.mp h
        unfold fieldNotFoundErr typeNotFoundErr at h3
        injection h3 with h4 h5
        injection h4 with h6
        exact msg_unknown_ne_contains typ.TypeName field h6.symm
      | some fr =>
        cases hrun : fr.ResolverFunc params with
        | mk v oe =>
          cases oe with
          | none =>
            rw [resolve_of_handler_ok rm typ field params fr v
              (getFieldResolver_of_found rm typ field tr fr hty hf2) hrun] at h
            cases h
          | some e =>
            rw [resolve_of_handler_error rm typ field params fr v e
              (getFieldResolver_of_found rm typ field tr fr hty hf2) hrun] at h
            have h3 := Option.some_inj.mp h
            unfold typeNotFoundErr at h3
            injection h3 with h4 h5
            exact msg_exec_ne_lookup typ.TypeName field h5
  · intro h
    cases hty : findA rm.Types typ with
    | none =>
      exfalso
      rw [k1 hty] at h
      have h3 : typeNotFoundErr typ = fieldNotFoundErr typ field :=
        Option.some_inj.mp h
      unfold fieldNotFoundErr typeNotFoundErr at h3
      injection h3 with h4 h5
      injection h4 with h6
      exact msg_unknown_ne_contains typ.TypeName field h6
    | some tr =>
      cases hf2 : findA tr.Fields field with
      | none => exact ⟨tr, rfl, hf2⟩
      | some fr =>
        exfalso
        cases hrun : fr.ResolverFunc params with
        | mk v oe =>
          cases oe with
          | none =>
            rw [resolve_of_handler_ok rm typ field params fr v
              (getFieldResolver_of_found rm typ field tr fr hty hf2) hrun] at h
            cases h
          | some e =>
            rw [resolve_of_handler_error rm typ field params fr v e
              (getFieldResolver_of_found rm typ field tr fr hty hf2) hrun] at h
            have h3 := Option.some_inj.mp h
            unfold fieldNotFoundErr at h3
            injection h3 with h4 h5
            exact msg_exec_ne_lookup typ.TypeName field h5
  · obtain ⟨tr, hty, hf2⟩ := h
    rw [k2 tr hty hf2]

/-- C3 witness: in the `User` scenario, dispatch against the unregistered
union yields the type-not-found error, and an undeclared field of `User`
yields the field-not-found error. -/
theorem resolve_lookup_errors_witness :
    ((NewResolverMap sampleSchema sampleHandlers).Resolve searchUnion "x"
        sampleParams).2 = some (typeNotFoundErr searchUnion)
    ∧ ((NewResolverMap sampleSchema sampleHandlers).Resolve userType "email"
        sampleParams).2 = some (fieldNotFoundErr userType "email") :=
  ⟨(resolve_lookup_errors (NewResolverMap sampleSchema sampleHandlers) searchUnion
      "x" sampleParams).1.mpr rfl,
   (resolve_lookup_errors (NewResolverMap sampleSchema sampleHandlers) userType
      "email" sampleParams).2.1.mpr ⟨_, rfl, rfl⟩⟩

/-- C8: registry construction is a total function (the embedding's type,
like the Go signature, admits no error outcome), and a handler-table entry
whose key matches no declared type/field pair of the schema is silently
unused: adding it leaves the built registry unchanged. -/
theorem build_unmatched_entries_unused (sch : Schema)
    (inputResolvers : List (String × ResolverFunc)) (k : String) (hd : ResolverFunc)
    (hk : ∀ t ∈ sch.Types, ∀ f ∈ declaredFields t, t.TypeName ++ "." ++ f.Name ≠ k) :
    NewResolverMap sch ((k, hd) :: inputResolvers) = NewResolverMap sch inputResolvers := by
  unfold NewResolverMap
  refine congrArg ResolverMap.mk ?_
  refine foldl_congr_on _ _ sch.Types [] (fun t ht acc => ?_)
  unfold addType
  rw [typeFields_cons_unused inputResolvers k hd t (hk t ht)]

/-- C8 witness: a handler-table entry for the nonexistent pair
`Bogus.field` has no effect on the scenario registry. -/
theorem build_unmatched_entries_unused_witness :
    NewResolverMap sampleSchema (("Bogus.field", userNameHandler) :: sampleHandlers)
      = NewResolverMap sampleSchema sampleHandlers :=
  build_unmatched_entries_unused sampleSchema sampleHandlers "Bogus.field"
    userNameHandler (by decide)

/-- C10: the registry's keys are exactly the non-meta types of the schema
that declare at least one field — since `declaredFields` is empty for
every kind other than object and interface, scalar, enum, input-object and
union types never appear even though they are not on the exclusion list —
and the field table of a retained type has exactly the type's declared
field names as keys. -/
theorem registry_keys_exact (sch : Schema)
    (inputResolvers : List (String × ResolverFunc)) (t : NamedType) :
    ((findA (NewResolverMap sch inputResolvers).Types t).isSome
        ↔ t ∈ sch.Types ∧ metaType t.TypeName = false ∧ declaredFields t ≠ [])
    ∧ ∀ tr, findA (NewResolverMap sch inputResolvers).Types t = some tr →
        ∀ key, ((findA tr.Fields key).isSome
          ↔ key ∈ (declaredFields t).map SField.Name) := by
  have hunfold : (NewResolverMap sch inputResolvers).Types
      = sch.Types.foldl (addType inputResolvers) [] := rfl
  constructor
  · constructor
    · intro h
      have hmem : t ∈ sch.Types := by
        rw [hunfold] at h
        rcases findA_foldl_addType_isSome_imp inputResolvers sch.Types [] t h with
          hm | hnil
        · exact hm
        · cases hnil
      have hmeta : metaType t.TypeName = false := by
        by_cases hm : metaType t.TypeName
        · exfalso
          rw [hunfold, findA_foldl_addType_skipped inputResolvers sch.Types [] t
            (Or.inl hm)] at h
          cases h
        · simpa using hm
      have hd : declaredFields t ≠ [] := by
        intro h0
        rw [hunfold, findA_foldl_addType_skipped inputResolvers sch.Types [] t
          (Or.inr ((typeFields_eq_nil_iff inputResolvers t).mpr h0))] at h
        cases h
      exact ⟨hmem, hmeta, hd⟩
    · rintro ⟨hmem, hmeta, hd⟩
      have htne : typeFields inputResolvers t ≠ [] := by
        intro h0
        exact hd ((typeFields_eq_nil_iff inputResolvers t).mp h0)
      rw [hunfold,
        findA_foldl_addType_mem inputResolvers sch.Types [] t hmem hmeta htne]
      rfl
  · intro tr htr key
    have hval : tr = { Fields := typeFields inputResolvers t } := by
      rw [hunfold] at htr
      rcases findA_foldl_addType_value inputResolvers sch.Types [] t tr htr with
        hv | hnil
      · exact hv
      · cases hnil
    rw [hval]
    show (findA (typeFields inputResolvers t) key).isSome
        ↔ key ∈ (declaredFields t).map SField.Name
    rw [typeFields_eq_buildFields]
    unfold buildFields
    rw [findA_foldl_insert_isSome _ (declaredFields t) [] key]
    simp [findA]

/-- C10 witness: in the `User` scenario, `User` is a registry key and its
field table's keys include exactly the declared names, `name` among them;
the union is characterized out by the key iff. -/
theorem registry_keys_exact_witness :
    (findA (NewResolverMap sampleSchema sampleHandlers).Types userType).isSome
    ∧ ∃ tr, findA (NewResolverMap sampleSchema sampleHandlers).Types userType
          = some tr
        ∧ (findA tr.Fields "name").isSome :=
  ⟨(registry_keys_exact sampleSchema sampleHandlers userType).1.mpr
      ⟨by decide, by decide, by decide⟩,
   ⟨_, rfl,
    ((registry_keys_exact sampleSchema sampleHandlers userType).2 _ rfl "name").mpr
      (by decide)⟩⟩

end Dynamic
